import Mathlib

set_option autoImplicit false
set_option linter.unusedVariables false

/-!
Shallow embedding of the resilient call layer of the yomitoku server:
the error classifier (src/utils/error-categorization.ts), the retry engine
(src/services/retry.ts), the analyze response cache (cache service built on
the lru-cache library), the lazy service factory (service-factory), and the
cache-consulting fragment of the analyze route handler (src/routes/analyze.ts).

JavaScript runtime notions that the source relies on are made explicit:
`undefined` becomes `Option`, truthiness becomes an explicit boolean test,
and the loose status fields (which may hold a number or a string) become a
small sum type.
-/

namespace YomitokuServer

/-- A JavaScript value sitting in a loose status/code field: either a number
or a string (for codes such as ECONNREFUSED). -/
inductive JsStatus where
  | num (n : Int)
  | str (s : String)
  deriving DecidableEq

/-- JavaScript truthiness of a status value: 0 and the empty string are falsy. -/
def JsStatus.truthy : JsStatus → Bool
  | .num n => n != 0
  | .str s => s != ""

/-- Truthiness of a possibly-undefined status value (undefined is falsy). -/
def optStatusTruthy : Option JsStatus → Bool
  | none => false
  | some v => v.truthy

/-- JavaScript `a || b` on possibly-undefined status values: the left operand
is kept when truthy, otherwise the right operand is returned as-is. -/
def optStatusOr (a b : Option JsStatus) : Option JsStatus :=
  match a with
  | some v => if v.truthy then some v else b
  | none => b

/-- JavaScript `a || d` where `a` is a possibly-undefined status value and
`d` a definite default. -/
def jsStatusOr (a : Option JsStatus) (d : JsStatus) : JsStatus :=
  match a with
  | some v => if v.truthy then v else d
  | none => d

/-- JavaScript `a || d` on a possibly-undefined string with a definite
default: the empty string is falsy and falls through to the default. -/
def strOr (a : Option String) (d : String) : String :=
  match a with
  | some s => if s = "" then d else s
  | none => d

/-- Whether `pat` occurs as a prefix of `l` (character-wise comparison). -/
def leadsWith : List Char → List Char → Bool
  | [], _ => true
  | _ :: _, [] => false
  | a :: as, b :: bs => a == b && leadsWith as bs

/-- Whether `pat` occurs as a contiguous run somewhere in `l`. -/
def hasRun (pat : List Char) : List Char → Bool
  | [] => leadsWith pat []
  | c :: cs => leadsWith pat (c :: cs) || hasRun pat cs

/-- JavaScript `s.includes(pat)`: substring containment. -/
def strContains (s pat : String) : Bool :=
  hasRun pat.toList s.toList

/-- JavaScript `s.toLowerCase()` on the ASCII range, as a character-wise map
(all patterns and codes compared in the source are ASCII). -/
def lowerStr (s : String) : String :=
  String.mk (s.data.map Char.toLower)

/-! ## Error classifier: src/utils/error-categorization.ts -/

/-- The `ApplicationError` value from src/types/errors.ts: a stable category
code, a user-facing message (kept optional since throw sites may pass an
absent message through), an HTTP-like status, and optional debug details. -/
structure ApplicationError where
  code : String
  message : Option String
  statusCode : JsStatus
  details : Option String := none
  deriving DecidableEq

/-- The operation-context label selecting the message template. -/
inductive ErrorContext where
  | identifyPhrase
  | identifyPhrases
  | analyze
  deriving DecidableEq

/-- A raw upstream failure as observed by the classifier: an opportunistic
`code` field (number or string) and a message. -/
structure RawApiError where
  code : Option JsStatus := none
  message : Option String := none
  deriving DecidableEq

/-- `((error as any)?.message || '').toLowerCase()` from the classifier. -/
def lowerMessage (e : RawApiError) : String :=
  lowerStr (strOr e.message "")

/-- Timeout message templates, one per operation context. -/
def timeoutMessage : ErrorContext → String
  | .identifyPhrase => "Request timed out. Please try again with a smaller image or selection."
  | .identifyPhrases => "Request timed out. Please try again with a smaller image or fewer phrases."
  | .analyze => "Request timed out. Please try again."

/-- Generic error message templates, one per operation context. -/
def contextMessage : ErrorContext → String
  | .identifyPhrase => "Failed to identify phrase from screenshot"
  | .identifyPhrases => "Failed to identify phrases from screenshot"
  | .analyze => "Failed to analyze phrase"

/-- `categorizeApiError` from src/utils/error-categorization.ts: the ordered
if-chain mapping a raw failure to an `ApplicationError`. -/
def categorizeApiError (e : RawApiError) (context : ErrorContext)
    (isDevelopment : Bool) : ApplicationError :=
  let errorCode := e.code
  let errorMessage := lowerMessage e
  if errorCode == some (JsStatus.num 401)
      || strContains errorMessage "api key"
      || strContains errorMessage "invalid_argument" then
    ⟨"API_UNAVAILABLE", some "Service temporarily unavailable. Please contact support.",
      JsStatus.num 503, none⟩
  else if errorCode == some (JsStatus.num 429)
      || strContains errorMessage "quota"
      || strContains errorMessage "rate limit" then
    ⟨"API_QUOTA_EXCEEDED",
      some "Service temporarily unavailable due to high demand. Please try again later.",
      JsStatus.num 503, none⟩
  else if strContains errorMessage "content" && strContains errorMessage "filter" then
    ⟨"CONTENT_FILTERED", some "Unable to process this content. Please try different text.",
      JsStatus.num 400, none⟩
  else if errorCode == some (JsStatus.str "ECONNREFUSED")
      || errorCode == some (JsStatus.str "ENOTFOUND") then
    ⟨"API_UNAVAILABLE", some "Unable to connect to analysis service. Please try again.",
      JsStatus.num 503, none⟩
  else if errorCode == some (JsStatus.str "ETIMEDOUT")
      || strContains errorMessage "timeout" then
    ⟨"TIMEOUT", some (timeoutMessage context), JsStatus.num 504, none⟩
  else
    ⟨"API_ERROR", some (contextMessage context), JsStatus.num 500,
      if isDevelopment then some (strOr e.message "") else none⟩

/-- The spec-level category names (spec section 3, ErrorCategory). -/
inductive ErrorCategory where
  | AUTH_UNAVAILABLE
  | QUOTA_EXCEEDED
  | CONTENT_FILTERED
  | NETWORK_UNAVAILABLE
  | TIMEOUT
  | UNKNOWN_SERVER_ERROR
  deriving DecidableEq

/-- The branch of the `categorizeApiError` if-chain that fires, named with the
spec-level category names: branch conditions are verbatim those of
`categorizeApiError`. -/
def categorizeBranch (e : RawApiError) : ErrorCategory :=
  let errorCode := e.code
  let errorMessage := lowerMessage e
  if errorCode == some (JsStatus.num 401)
      || strContains errorMessage "api key"
      || strContains errorMessage "invalid_argument" then
    ErrorCategory.AUTH_UNAVAILABLE
  else if errorCode == some (JsStatus.num 429)
      || strContains errorMessage "quota"
      || strContains errorMessage "rate limit" then
    ErrorCategory.QUOTA_EXCEEDED
  else if strContains errorMessage "content" && strContains errorMessage "filter" then
    ErrorCategory.CONTENT_FILTERED
  else if errorCode == some (JsStatus.str "ECONNREFUSED")
      || errorCode == some (JsStatus.str "ENOTFOUND") then
    ErrorCategory.NETWORK_UNAVAILABLE
  else if errorCode == some (JsStatus.str "ETIMEDOUT")
      || strContains errorMessage "timeout" then
    ErrorCategory.TIMEOUT
  else
    ErrorCategory.UNKNOWN_SERVER_ERROR

/-- Claim C1: a raw failure whose message contains an auth-indicating pattern
(such as "api key") and whose code is a network-style code (ECONNREFUSED or
ENOTFOUND) classifies as the authentication category with status 503, never
as the network category: the auth check is evaluated before the network
check. -/
theorem categorize_auth_wins_over_network (e : RawApiError) (ctx : ErrorContext)
    (dev : Bool)
    (hmsg : strContains (lowerMessage e) "api key" = true)
    (hcode : e.code = some (JsStatus.str "ECONNREFUSED")
      ∨ e.code = some (JsStatus.str "ENOTFOUND")) :
    categorizeBranch e = ErrorCategory.AUTH_UNAVAILABLE
      ∧ (categorizeApiError e ctx dev).statusCode = JsStatus.num 503
      ∧ (categorizeApiError e ctx dev).code = "API_UNAVAILABLE"
      ∧ categorizeBranch e ≠ ErrorCategory.NETWORK_UNAVAILABLE := by
  have h1 : (e.code == some (JsStatus.num 401)
      || strContains (lowerMessage e) "api key"
      || strContains (lowerMessage e) "invalid_argument") = true := by
    simp [hmsg]
  refine ⟨?_, ?_, ?_, ?_⟩ <;>
    simp [categorizeBranch, categorizeApiError, h1]

/-- Concrete instance of claim C1: message "Invalid API key", code
ECONNREFUSED. -/
theorem categorize_auth_wins_over_network_witness :
    categorizeBranch ⟨some (JsStatus.str "ECONNREFUSED"), some "Invalid API key"⟩
        = ErrorCategory.AUTH_UNAVAILABLE
      ∧ (categorizeApiError ⟨some (JsStatus.str "ECONNREFUSED"), some "Invalid API key"⟩
          ErrorContext.analyze false).statusCode = JsStatus.num 503
      ∧ (categorizeApiError ⟨some (JsStatus.str "ECONNREFUSED"), some "Invalid API key"⟩
          ErrorContext.analyze false).code = "API_UNAVAILABLE"
      ∧ categorizeBranch ⟨some (JsStatus.str "ECONNREFUSED"), some "Invalid API key"⟩
          ≠ ErrorCategory.NETWORK_UNAVAILABLE := by
  exact categorize_auth_wins_over_network _ _ _ (by decide) (Or.inl rfl)

/-! ## Retry engine: src/services/retry.ts -/

/-- A raw failure as observed by the retry engine: the three status-bearing
fields tried in order, the message and name used for pattern matching, and
the parsed retry-after header (in seconds) when present and truthy. -/
structure RetryError where
  statusCode : Option JsStatus := none
  status : Option JsStatus := none
  code : Option JsStatus := none
  message : Option String := none
  name : Option String := none
  retryAfter : Option Nat := none
  deriving DecidableEq

/-- `getErrorStatus`: `error.statusCode || error.status || error.code`. -/
def getErrorStatus (e : RetryError) : Option JsStatus :=
  optStatusOr e.statusCode (optStatusOr e.status e.code)

/-- `codes.includes(status)` where `codes` is a list of numbers: a string
status is never strictly equal to a number. -/
def statusIn (status : Option JsStatus) (codes : List Int) : Bool :=
  match status with
  | some (JsStatus.num n) => codes.contains n
  | _ => false

/-- `error.message || error.name || ''` from `isTransientError`. -/
def transientText (e : RetryError) : String :=
  strOr e.message (strOr e.name "")

/-- The case-insensitive regex `/timeout|ECONNRESET|ETIMEDOUT|ENOTFOUND/i`
applied to `t`. -/
def matchesTransientPattern (t : String) : Bool :=
  let l := lowerStr t
  strContains l "timeout" || strContains l "econnreset"
    || strContains l "etimedout" || strContains l "enotfound"

/-- `isTransientError` from src/services/retry.ts. -/
def isTransientError (e : RetryError) : Bool :=
  let status := getErrorStatus e
  if optStatusTruthy status && statusIn status [429, 500, 503] then
    true
  else
    matchesTransientPattern (transientText e)

/-- `isPermanentError` from src/services/retry.ts. -/
def isPermanentError (e : RetryError) : Bool :=
  let status := getErrorStatus e
  if optStatusTruthy status then statusIn status [400, 401, 403, 404] else false

/-- The retry policy record. -/
structure RetryConfig where
  maxRetries : Nat
  initialDelay : Nat
  maxDelay : Nat
  backoffMultiplier : Nat
  deriving DecidableEq

/-- `DEFAULT_RETRY_CONFIG`. -/
def defaultRetryConfig : RetryConfig :=
  { maxRetries := 3, initialDelay := 1000, maxDelay := 32000, backoffMultiplier := 2 }

/-- The error raised on a permanent failure:
`new ApplicationError('API_ERROR', error.message, error.status || 500)`. -/
def permanentRaise (e : RetryError) : ApplicationError :=
  ⟨"API_ERROR", e.message, jsStatusOr e.status (JsStatus.num 500), none⟩

/-- The error raised when the loop breaks (retries exhausted or failure not
transient): `new ApplicationError('API_ERROR', lastError.message || 'Gemini
API request failed', lastError.status || 500)`. -/
def exhaustedRaise (e : RetryError) : ApplicationError :=
  ⟨"API_ERROR", some (strOr e.message "Gemini API request failed"),
    jsStatusOr e.status (JsStatus.num 500), none⟩

/-- The wait before the next attempt: the parsed retry-after header times
1000 when present, otherwise `Math.min(delay, config.maxDelay)`. -/
def waitTime (cfg : RetryConfig) (e : RetryError) (delay : Nat) : Nat :=
  match e.retryAfter with
  | some s => s * 1000
  | none => min delay cfg.maxDelay

/-- Observable outcome of a `callWithRetry` run: the returned value or the
raised error, the number of times the operation was invoked, and the list of
sleeps performed (in ms, in order). -/
structure RetryRun (α : Type) where
  result : Except ApplicationError α
  calls : Nat
  waits : List Nat

/-- The retry loop of `callWithRetry`, with the operation modelled as a map
from the attempt index to that invocation's outcome. `fuel` is the number of
retries still allowed (`config.maxRetries - attempt`), so `fuel = 0` is the
`attempt === config.maxRetries` half of the break condition
`attempt === config.maxRetries || !isTransientError(error)`: at `fuel = 0`
the loop breaks to the final raise whether or not the failure is transient,
exactly as in the source. -/
def callWithRetryGo {α : Type} (cfg : RetryConfig) (fn : Nat → Except RetryError α) :
    Nat → Nat → Nat → RetryRun α
  | 0, attempt, delay =>
    (match fn attempt with
    | Except.ok v => ⟨Except.ok v, 1, []⟩
    | Except.error e =>
      if isPermanentError e then
        ⟨Except.error (permanentRaise e), 1, []⟩
      else
        ⟨Except.error (exhaustedRaise e), 1, []⟩)
  | fuel + 1, attempt, delay =>
    (match fn attempt with
    | Except.ok v => ⟨Except.ok v, 1, []⟩
    | Except.error e =>
      if isPermanentError e then
        ⟨Except.error (permanentRaise e), 1, []⟩
      else if isTransientError e then
        let r := callWithRetryGo cfg fn fuel (attempt + 1) (delay * cfg.backoffMultiplier)
        ⟨r.result, r.calls + 1, waitTime cfg e delay :: r.waits⟩
      else
        ⟨Except.error (exhaustedRaise e), 1, []⟩)

/-- `callWithRetry` from src/services/retry.ts. -/
def callWithRetry {α : Type} (cfg : RetryConfig) (fn : Nat → Except RetryError α) :
    RetryRun α :=
  callWithRetryGo cfg fn cfg.maxRetries 0 cfg.initialDelay

section RetryLemmas

variable {α : Type} (cfg : RetryConfig) (fn : Nat → Except RetryError α)

theorem callWithRetryGo_ok (fuel attempt delay : Nat) (v : α)
    (h : fn attempt = Except.ok v) :
    callWithRetryGo cfg fn fuel attempt delay = ⟨Except.ok v, 1, []⟩ := by
  cases fuel <;> rw [callWithRetryGo, h]

theorem callWithRetryGo_perm (fuel attempt delay : Nat) (e : RetryError)
    (h : fn attempt = Except.error e) (hp : isPermanentError e = true) :
    callWithRetryGo cfg fn fuel attempt delay
      = ⟨Except.error (permanentRaise e), 1, []⟩ := by
  cases fuel <;> rw [callWithRetryGo, h] <;> simp only [hp, if_true]

theorem callWithRetryGo_break (fuel attempt delay : Nat) (e : RetryError)
    (h : fn attempt = Except.error e) (hp : isPermanentError e = false)
    (ht : isTransientError e = false) :
    callWithRetryGo cfg fn fuel attempt delay
      = ⟨Except.error (exhaustedRaise e), 1, []⟩ := by
  cases fuel <;> rw [callWithRetryGo, h] <;>
    simp only [hp, ht, Bool.false_eq_true, if_false]

theorem callWithRetryGo_fuel_out (attempt delay : Nat) (e : RetryError)
    (h : fn attempt = Except.error e) (hp : isPermanentError e = false) :
    callWithRetryGo cfg fn 0 attempt delay
      = ⟨Except.error (exhaustedRaise e), 1, []⟩ := by
  rw [callWithRetryGo, h]
  simp only [hp, Bool.false_eq_true, if_false]

theorem callWithRetryGo_retry (f attempt delay : Nat) (e : RetryError)
    (h : fn attempt = Except.error e) (hp : isPermanentError e = false)
    (ht : isTransientError e = true) :
    callWithRetryGo cfg fn (f + 1) attempt delay
      = ⟨(callWithRetryGo cfg fn f (attempt + 1) (delay * cfg.backoffMultiplier)).result,
         (callWithRetryGo cfg fn f (attempt + 1) (delay * cfg.backoffMultiplier)).calls + 1,
         waitTime cfg e delay
           :: (callWithRetryGo cfg fn f (attempt + 1) (delay * cfg.backoffMultiplier)).waits⟩ := by
  rw [callWithRetryGo, h]
  simp only [hp, ht, Bool.false_eq_true, if_false, if_true]

theorem callWithRetryGo_calls_le :
    ∀ fuel attempt delay : Nat, (callWithRetryGo cfg fn fuel attempt delay).calls ≤ fuel + 1 := by
  intro fuel
  induction fuel with
  | zero =>
    intro attempt delay
    cases hfa : fn attempt with
    | ok v => rw [callWithRetryGo_ok cfg fn _ _ _ v hfa]
    | error e =>
      by_cases hp : isPermanentError e
      · rw [callWithRetryGo_perm cfg fn _ _ _ e hfa hp]
      · rw [callWithRetryGo_fuel_out cfg fn _ _ e hfa (by simpa using hp)]
  | succ f ih =>
    intro attempt delay
    cases hfa : fn attempt with
    | ok v =>
      rw [callWithRetryGo_ok cfg fn _ _ _ v hfa]
      exact Nat.le_add_left 1 _
    | error e =>
      by_cases hp : isPermanentError e
      · rw [callWithRetryGo_perm cfg fn _ _ _ e hfa hp]
        exact Nat.le_add_left 1 _
      · by_cases ht : isTransientError e
        · rw [callWithRetryGo_retry cfg fn f _ _ e hfa (by simpa using hp) ht]
          have := ih (attempt + 1) (delay * cfg.backoffMultiplier)
          exact Nat.succ_le_succ this
        · rw [callWithRetryGo_break cfg fn _ _ _ e hfa (by simpa using hp) (by simpa using ht)]
          exact Nat.le_add_left 1 _

end RetryLemmas

/-- An error carrying 404 in the `statusCode` field only (the shape of the
repository's own "should not retry on 404" test input). -/
def notFoundErr : RetryError :=
  { statusCode := some (JsStatus.num 404), message := some "Not found" }

/-- Claim C2 counterexample: on an error whose observed status is 404 but
carried in the `statusCode` field, `callWithRetry` invokes the operation
once yet raises with status 500, not 404: the raise uses `error.status ||
500` and `status` is absent, so the original status is lost. -/
theorem retry_permanent_status_not_preserved :
    getErrorStatus notFoundErr = some (JsStatus.num 404)
      ∧ (callWithRetry defaultRetryConfig
          (fun _ => Except.error notFoundErr) : RetryRun Unit).calls = 1
      ∧ (callWithRetry defaultRetryConfig
          (fun _ => Except.error notFoundErr) : RetryRun Unit).result
          = Except.error ⟨"API_ERROR", some "Not found", JsStatus.num 500, none⟩
      ∧ JsStatus.num 500 ≠ JsStatus.num 404 := by
  refine ⟨rfl, rfl, rfl, by decide⟩

/-- Claim C2 (amended): for every error whose observed status (first truthy
among `statusCode`, `status`, `code`) is one of 400, 401, 403, 404,
`callWithRetry` invokes the operation exactly once and immediately raises an
API_ERROR failure whose status is the error's `status` field when truthy and
500 otherwise — the original status is preserved exactly when it is carried
in `status`. -/
theorem retry_permanent_aborts_immediately {α : Type} (cfg : RetryConfig)
    (fn : Nat → Except RetryError α) (e : RetryError)
    (hfn : fn 0 = Except.error e) (hperm : isPermanentError e = true) :
    (callWithRetry cfg fn).calls = 1
      ∧ (callWithRetry cfg fn).result
          = Except.error ⟨"API_ERROR", e.message, jsStatusOr e.status (JsStatus.num 500), none⟩ := by
  have step := callWithRetryGo_perm cfg fn cfg.maxRetries 0 cfg.initialDelay e hfn hperm
  rw [callWithRetry, step]
  exact ⟨rfl, rfl⟩

/-- An error carrying 400 in the `status` field (the shape of the
repository's own "should not retry on 400" test input). -/
def badRequestErr : RetryError :=
  { status := some (JsStatus.num 400), message := some "Bad request" }

/-- Concrete instance of amended claim C2: an error carrying `status` 400 is
raised once, immediately, with status 400 preserved. -/
theorem retry_permanent_aborts_immediately_witness :
    (callWithRetry defaultRetryConfig
        (fun _ => Except.error badRequestErr) : RetryRun Unit).calls = 1
      ∧ (callWithRetry defaultRetryConfig
          (fun _ => Except.error badRequestErr) : RetryRun Unit).result
          = Except.error ⟨"API_ERROR", some "Bad request", JsStatus.num 400, none⟩ := by
  exact retry_permanent_aborts_immediately defaultRetryConfig
    (fun _ => Except.error badRequestErr) badRequestErr rfl (by decide)

/-- Claim C3: in every run, the i-th sleep (the wait before the (i+1)-th
attempt) equals the retry-after hint times 1000 when the i-th failure
carries one, and `min(initialDelay * backoffMultiplier ^ i, maxDelay)`
otherwise — in particular the internal delay is multiplied by the backoff
multiplier after every retry whether or not a hint was used. -/
theorem callWithRetry_wait_schedule {α : Type} (cfg : RetryConfig)
    (fn : Nat → Except RetryError α) (i : Nat)
    (h : i < (callWithRetry cfg fn).waits.length) :
    ∃ e, fn i = Except.error e
      ∧ (callWithRetry cfg fn).waits[i]?
          = some (match e.retryAfter with
            | some s => s * 1000
            | none => min (cfg.initialDelay * cfg.backoffMultiplier ^ i) cfg.maxDelay) := by
  have main : ∀ fuel attempt delay i,
      i < (callWithRetryGo cfg fn fuel attempt delay).waits.length →
      ∃ e, fn (attempt + i) = Except.error e
        ∧ (callWithRetryGo cfg fn fuel attempt delay).waits[i]?
            = some (waitTime cfg e (delay * cfg.backoffMultiplier ^ i)) := by
    intro fuel
    induction fuel with
    | zero =>
      intro attempt delay i hi
      exfalso
      cases hfa : fn attempt with
      | ok v => rw [callWithRetryGo_ok cfg fn _ _ _ v hfa] at hi; simp at hi
      | error e =>
        by_cases hp : isPermanentError e
        · rw [callWithRetryGo_perm cfg fn _ _ _ e hfa hp] at hi; simp at hi
        · rw [callWithRetryGo_fuel_out cfg fn _ _ e hfa (by simpa using hp)] at hi
          simp at hi
    | succ f ih =>
      intro attempt delay i hi
      cases hfa : fn attempt with
      | ok v => rw [callWithRetryGo_ok cfg fn _ _ _ v hfa] at hi; simp at hi
      | error e =>
        by_cases hp : isPermanentError e
        · rw [callWithRetryGo_perm cfg fn _ _ _ e hfa hp] at hi; simp at hi
        · by_cases ht : isTransientError e
          · have hstep := callWithRetryGo_retry cfg fn f attempt delay e hfa
              (by simpa using hp) ht
            rw [hstep] at hi ⊢
            cases i with
            | zero =>
              refine ⟨e, by simpa using hfa, ?_⟩
              simp
            | succ j =>
              have hj : j < (callWithRetryGo cfg fn f (attempt + 1)
                  (delay * cfg.backoffMultiplier)).waits.length := by
                simpa using hi
              obtain ⟨e2, he2, hw2⟩ := ih (attempt + 1) (delay * cfg.backoffMultiplier) j hj
              refine ⟨e2, ?_, ?_⟩
              · rw [show attempt + (j + 1) = attempt + 1 + j by omega]
                exact he2
              · rw [List.getElem?_cons_succ, hw2]
                have harith : delay * cfg.backoffMultiplier * cfg.backoffMultiplier ^ j
                    = delay * cfg.backoffMultiplier ^ (j + 1) := by ring
                rw [harith]
          · rw [callWithRetryGo_break cfg fn _ _ _ e hfa (by simpa using hp)
              (by simpa using ht)] at hi
            simp at hi
  rw [callWithRetry] at h ⊢
  obtain ⟨e, he, hw⟩ := main cfg.maxRetries 0 cfg.initialDelay i h
  refine ⟨e, by simpa using he, ?_⟩
  rw [hw, waitTime]

/-- A 429 failure without a retry-after hint. -/
def rateLimitedErr : RetryError :=
  { statusCode := some (JsStatus.num 429), message := some "Rate limited" }

/-- A 429 failure carrying a retry-after hint of 5 seconds. -/
def hintedErr : RetryError :=
  { statusCode := some (JsStatus.num 429), message := some "Rate limited", retryAfter := some 5 }

/-- An operation failing twice without a hint, once with a hint of 5
seconds, then succeeding. -/
def hintedScheduleFn : Nat → Except RetryError String := fun i =>
  if i < 2 then Except.error rateLimitedErr
  else if i = 2 then Except.error hintedErr
  else Except.ok "done"

/-- Concrete instance of claim C3: under the default policy, two hint-free
transient failures then a hinted one produce sleeps 1000, 2000 and 5000: the
hint of 5 seconds overrides the third computed delay only. -/
theorem callWithRetry_wait_schedule_witness :
    (∃ e, hintedScheduleFn 1 = Except.error e
      ∧ (callWithRetry defaultRetryConfig hintedScheduleFn).waits[1]?
          = some (match e.retryAfter with
            | some s => s * 1000
            | none => min (defaultRetryConfig.initialDelay
                * defaultRetryConfig.backoffMultiplier ^ 1) defaultRetryConfig.maxDelay))
      ∧ (callWithRetry defaultRetryConfig hintedScheduleFn).waits = [1000, 2000, 5000] := by
  refine ⟨callWithRetry_wait_schedule defaultRetryConfig hintedScheduleFn 1 (by decide), by decide⟩

/-- A failure with a timeout-shaped message that also carries a permanent
status in `statusCode`: transient by the message pattern, permanent by the
status check. -/
def timeoutShaped400Err : RetryError :=
  { statusCode := some (JsStatus.num 400), message := some "Request timeout" }

/-- An operation failing three times with `timeoutShaped400Err`, then
succeeding. -/
def timeoutShaped400Fn : Nat → Except RetryError String := fun i =>
  if i < 3 then Except.error timeoutShaped400Err else Except.ok "ok"

/-- Claim C4 counterexample: an error with a timeout-shaped message (hence
transient by the claim's definition, and `isTransientError` agrees) that
also carries status 400 aborts on the first attempt, because the permanent
check is evaluated first — the operation is invoked once, not four times,
and the run raises instead of returning the success. -/
theorem retry_transient_beaten_by_permanent :
    isTransientError timeoutShaped400Err = true
      ∧ (callWithRetry defaultRetryConfig timeoutShaped400Fn).calls = 1
      ∧ (callWithRetry defaultRetryConfig timeoutShaped400Fn).result
          = Except.error ⟨"API_ERROR", some "Request timeout", JsStatus.num 500, none⟩ := by
  refine ⟨by decide, rfl, rfl⟩

/-- Claim C4 (amended): for every operation that fails exactly three times
with errors that are transient and not also permanent (status/code outside
400/401/403/404 — the permanent check takes precedence over the transient
pattern) and then succeeds, `callWithRetry` under the default policy returns
the success after invoking the operation exactly 4 times; and in every run,
under every policy, the operation is invoked at most maxRetries + 1 times. -/
theorem retry_attempt_bound_and_scenario :
    (∀ (α : Type) (cfg : RetryConfig) (fn : Nat → Except RetryError α),
        (callWithRetry cfg fn).calls ≤ cfg.maxRetries + 1)
      ∧ (∀ (α : Type) (fn : Nat → Except RetryError α) (v : α),
          (∀ i, i < 3 → ∃ e, fn i = Except.error e ∧ isTransientError e = true
              ∧ isPermanentError e = false) →
          fn 3 = Except.ok v →
          (callWithRetry defaultRetryConfig fn).result = Except.ok v
            ∧ (callWithRetry defaultRetryConfig fn).calls = 4) := by
  constructor
  · intro α cfg fn
    rw [callWithRetry]
    exact callWithRetryGo_calls_le cfg fn cfg.maxRetries 0 cfg.initialDelay
  · intro α fn v hfail hok
    obtain ⟨e0, hf0, ht0, hp0⟩ := hfail 0 (by omega)
    obtain ⟨e1, hf1, ht1, hp1⟩ := hfail 1 (by omega)
    obtain ⟨e2, hf2, ht2, hp2⟩ := hfail 2 (by omega)
    have h3 : ∀ d : Nat, callWithRetryGo defaultRetryConfig fn 0 3 d
        = ⟨Except.ok v, 1, []⟩ :=
      fun d => callWithRetryGo_ok defaultRetryConfig fn 0 3 d v hok
    have h2 : ∀ d : Nat, callWithRetryGo defaultRetryConfig fn (0 + 1) 2 d
        = ⟨Except.ok v, 2, [waitTime defaultRetryConfig e2 d]⟩ := by
      intro d
      rw [callWithRetryGo_retry defaultRetryConfig fn 0 2 d e2 hf2 hp2 ht2, h3]
    have h1 : ∀ d : Nat, callWithRetryGo defaultRetryConfig fn (1 + 1) 1 d
        = ⟨Except.ok v, 3,
            [waitTime defaultRetryConfig e1 d,
             waitTime defaultRetryConfig e2 (d * defaultRetryConfig.backoffMultiplier)]⟩ := by
      intro d
      rw [callWithRetryGo_retry defaultRetryConfig fn 1 1 d e1 hf1 hp1 ht1]
      rw [show (1 : Nat) = 0 + 1 from rfl, h2]
    have h0 : callWithRetryGo defaultRetryConfig fn (2 + 1) 0
          defaultRetryConfig.initialDelay
        = ⟨Except.ok v, 4,
            [waitTime defaultRetryConfig e0 defaultRetryConfig.initialDelay,
             waitTime defaultRetryConfig e1
               (defaultRetryConfig.initialDelay * defaultRetryConfig.backoffMultiplier),
             waitTime defaultRetryConfig e2
               (defaultRetryConfig.initialDelay * defaultRetryConfig.backoffMultiplier
                 * defaultRetryConfig.backoffMultiplier)]⟩ := by
      rw [callWithRetryGo_retry defaultRetryConfig fn 2 0
        defaultRetryConfig.initialDelay e0 hf0 hp0 ht0]
      rw [show (2 : Nat) = 1 + 1 from rfl, h1]
    rw [callWithRetry, show defaultRetryConfig.maxRetries = 2 + 1 from rfl, h0]
    exact ⟨rfl, rfl⟩

/-- Concrete instance of amended claim C4: three 429 failures then a
success: the engine returns the success with 4 invocations; the universal
bound instantiated at the same run gives calls at most 4. -/
theorem retry_attempt_bound_and_scenario_witness :
    ((callWithRetry defaultRetryConfig (fun i =>
        if i < 3 then Except.error rateLimitedErr
        else Except.ok "done")).result = Except.ok "done"
      ∧ (callWithRetry defaultRetryConfig (fun i =>
          if i < 3 then Except.error rateLimitedErr
          else Except.ok "done")).calls = 4)
      ∧ (callWithRetry defaultRetryConfig (fun i =>
          if i < 3 then Except.error rateLimitedErr
          else Except.ok "done")).calls ≤ defaultRetryConfig.maxRetries + 1 := by
  constructor
  · refine retry_attempt_bound_and_scenario.2 String _ "done" ?_ rfl
    intro i hi
    exact ⟨rateLimitedErr, by simp [hi], by decide, by decide⟩
  · exact retry_attempt_bound_and_scenario.1 String defaultRetryConfig _

/-! ## Analyze cache service: cache.ts (AnalyzeCacheService over lru-cache) -/

/-- Truthiness of a possibly-undefined string (the `fullPhrase ? _ : _` test
in `generateKey`: undefined and the empty string are falsy). -/
def optStrTruthy : Option String → Bool
  | none => false
  | some s => s != ""

/-- The pre-hash key material of `AnalyzeCacheService.generateKey`:
`` `${phrase}:${actionType}:${fullPhrase}` `` when `fullPhrase` is truthy,
`` `${phrase}:${actionType}` `` otherwise. -/
def cacheKeyData (phrase actionType : String) (fullPhrase : Option String) : String :=
  if optStrTruthy fullPhrase then
    phrase ++ ":" ++ actionType ++ ":" ++ (match fullPhrase with
      | some fp => fp
      | none => "")
  else
    phrase ++ ":" ++ actionType

/-- `AnalyzeCacheService.generateKey`: the SHA-256 hex digest of the key
material. The digest (node crypto, external to the repository) is an
abstract parameter `hash`; every property below holds for an arbitrary,
even injective, hash. -/
def generateKey (hash : String → String) (phrase actionType : String)
    (fullPhrase : Option String) : String :=
  hash (cacheKeyData phrase actionType fullPhrase)

/-- Claim C5 counterexample: with the identity (hence injective, collision
free) digest, the triples ("a", "b", "") and ("a", "b", absent) differ in
the third field yet produce the same key with certainty — the empty string
is falsy, so an empty fullPhrase is dropped from the key material; no hash
collision is involved. -/
theorem generateKey_distinct_triples_same_key :
    generateKey id "a" "b" (some "") = generateKey id "a" "b" none
      ∧ (some "" : Option String) ≠ none
      ∧ Function.Injective (id : String → String) := by
  exact ⟨rfl, by simp, fun x y h => h⟩

/-- Claim C5 (amended): `generateKey` is pure and deterministic — identical
triples always produce identical keys — and two triples produce different
keys whenever their colon-joined key materials differ and the hash does not
collide on them; but triples that differ only between an empty and an
absent fullPhrase, or only in how characters distribute around the ":"
separators, share key material and therefore collide with certainty. -/
theorem generateKey_deterministic_and_injective_on_material
    (hash : String → String) (hinj : Function.Injective hash)
    (p a : String) (f : Option String) (p2 a2 : String) (f2 : Option String)
    (hdiff : cacheKeyData p a f ≠ cacheKeyData p2 a2 f2) :
    generateKey hash p a f = generateKey hash p a f
      ∧ generateKey hash p a f ≠ generateKey hash p2 a2 f2 := by
  refine ⟨rfl, fun h => hdiff (hinj h)⟩

/-- Concrete instance of amended claim C5: distinct phrases with distinct
key material give distinct keys under an injective digest. -/
theorem generateKey_deterministic_and_injective_on_material_witness :
    generateKey id "a" "b" none = generateKey id "a" "b" none
      ∧ generateKey id "a" "b" none ≠ generateKey id "c" "b" none := by
  exact generateKey_deterministic_and_injective_on_material id (fun x y h => h)
    "a" "b" none "c" "b" none (by decide)

/-- One live cache entry: key, stored value, absolute expiry time in ms. -/
structure LruEntry (V : Type) where
  key : String
  val : V
  expiresAt : Nat
  deriving DecidableEq

/-- Modelled from the spec: the lru-cache structure underlying
`AnalyzeCacheService` (the library itself is external to the repository),
with the options the service constructor passes: bounded at `max` entries,
per-entry TTL defaulting to `ttlMs`, `ttlAutopurge: false` (stale entries
are only removed when read), `updateAgeOnGet/Has: false` (reads refresh
recency for LRU ordering, never the TTL clock). `entries` is kept in
most-recently-used-first order. -/
structure LruModel (V : Type) where
  max : Nat
  ttlMs : Nat
  entries : List (LruEntry V)
  deriving DecidableEq

/-- Library `set`: replace any entry with the same key, evict down to
`max - 1` most-recent entries when at capacity, insert the new entry as
most recent with expiry `now + ttl`. -/
def lruSet {V : Type} (c : LruModel V) (key : String) (v : V) (now : Nat)
    (ttlMsOverride : Option Nat) : LruModel V :=
  let ttl := ttlMsOverride.getD c.ttlMs
  let rest := c.entries.filter (fun ent => ent.key != key)
  let rest2 := if c.max ≤ rest.length then rest.take (c.max - 1) else rest
  { c with entries := ⟨key, v, now + ttl⟩ :: rest2 }

/-- Library `get`: a live entry is returned and bumped to most recent; an
entry past its expiry is treated as absent and dropped; a missing key
returns absent and leaves the structure unchanged. -/
def lruGet {V : Type} (c : LruModel V) (key : String) (now : Nat) :
    Option V × LruModel V :=
  match c.entries.find? (fun ent => ent.key == key) with
  | none => (none, c)
  | some ent =>
    if now < ent.expiresAt then
      (some ent.val, { c with entries := ent :: c.entries.filter (fun e2 => e2.key != key) })
    else
      (none, { c with entries := c.entries.filter (fun e2 => e2.key != key) })

/-- Library `has`: present and not expired, with no change to the cache. -/
def lruHas {V : Type} (c : LruModel V) (key : String) (now : Nat) : Bool :=
  match c.entries.find? (fun ent => ent.key == key) with
  | none => false
  | some ent => decide (now < ent.expiresAt)

/-- The `AnalyzeCacheService` instance state: the LRU structure plus the
hit and miss counters. -/
structure AnalyzeCacheState (V : Type) where
  cache : LruModel V
  hits : Nat
  misses : Nat
  deriving DecidableEq

/-- The `AnalyzeCacheService` constructor: empty cache with `max :=
maxEntries` and `ttl := ttlSeconds * 1000`. -/
def analyzeCacheInit (V : Type) (maxEntries ttlSeconds : Nat) : AnalyzeCacheState V :=
  ⟨⟨maxEntries, ttlSeconds * 1000, []⟩, 0, 0⟩

/-- `AnalyzeCacheService.set`: a truthy ttlSeconds argument overrides the
TTL for this entry (`ttlSeconds ? { ttl: ttlSeconds * 1000 } : undefined`,
so an explicit 0 falls back to the default); counters are untouched. -/
def svcSet {V : Type} (s : AnalyzeCacheState V) (key : String) (v : V) (now : Nat)
    (ttlSeconds : Option Nat) : AnalyzeCacheState V :=
  let ttlOverride := match ttlSeconds with
    | some t => if t != 0 then some (t * 1000) else none
    | none => none
  { s with cache := lruSet s.cache key v now ttlOverride }

/-- `AnalyzeCacheService.get`: a defined value counts a hit, an undefined
result counts a miss. -/
def svcGet {V : Type} (s : AnalyzeCacheState V) (key : String) (now : Nat) :
    Option V × AnalyzeCacheState V :=
  match lruGet s.cache key now with
  | (some v, c2) => (some v, { cache := c2, hits := s.hits + 1, misses := s.misses })
  | (none, c2) => (none, { cache := c2, hits := s.hits, misses := s.misses + 1 })

/-- `AnalyzeCacheService.has`: a pure existence check touching neither the
entries nor the counters. -/
def svcHas {V : Type} (s : AnalyzeCacheState V) (key : String) (now : Nat) :
    Bool × AnalyzeCacheState V :=
  (lruHas s.cache key now, s)

/-- The `CacheStats` record returned by `getStats` (hitRate as an exact
rational standing in for the JS float division). -/
structure CacheStats where
  size : Nat
  maxSize : Nat
  hits : Nat
  misses : Nat
  hitRate : ℚ
  deriving DecidableEq

/-- `AnalyzeCacheService.getStats`: read-only derived statistics. -/
def svcGetStats {V : Type} (s : AnalyzeCacheState V) : CacheStats × AnalyzeCacheState V :=
  let total := s.hits + s.misses
  (⟨s.cache.entries.length, s.cache.max, s.hits, s.misses,
    if 0 < total then (s.hits : ℚ) / (total : ℚ) else 0⟩, s)

/-- `AnalyzeCacheService.clear`: drop all entries and reset both counters. -/
def svcClear {V : Type} (s : AnalyzeCacheState V) : AnalyzeCacheState V :=
  ⟨{ s.cache with entries := [] }, 0, 0⟩

/-- `AnalyzeCacheService.resetStats`: reset both counters only. -/
def svcResetStats {V : Type} (s : AnalyzeCacheState V) : AnalyzeCacheState V :=
  { s with hits := 0, misses := 0 }

/-- One call against the cache service (arguments included), used to
quantify over arbitrary usage histories. -/
inductive CacheOp (V : Type) where
  | set (key : String) (v : V) (now : Nat) (ttlSeconds : Option Nat)
  | get (key : String) (now : Nat)
  | has (key : String) (now : Nat)
  | stats
  | clear
  | reset

/-- Apply one service call to the state, discarding the returned value. -/
def applyOp {V : Type} (s : AnalyzeCacheState V) : CacheOp V → AnalyzeCacheState V
  | .set key v now ttl => svcSet s key v now ttl
  | .get key now => (svcGet s key now).2
  | .has key now => (svcHas s key now).2
  | .stats => (svcGetStats s).2
  | .clear => svcClear s
  | .reset => svcResetStats s

/-- Run a usage history left to right. -/
def runOps {V : Type} (s : AnalyzeCacheState V) (ops : List (CacheOp V)) :
    AnalyzeCacheState V :=
  ops.foldl applyOp s

section CacheLemmas

variable {V : Type}

theorem length_filter_lt_of_mem_not {α : Type} (l : List α) (q : α → Bool) (a : α)
    (ha : a ∈ l) (hq : q a = false) : (l.filter q).length < l.length := by
  induction l with
  | nil => cases ha
  | cons b t ih =>
    rcases List.mem_cons.mp ha with hb | ht
    · subst hb
      simp only [List.filter_cons, hq, Bool.false_eq_true, if_false]
      exact Nat.lt_succ_of_le (List.length_filter_le q t)
    · cases hqb : q b
      · simp only [List.filter_cons, hqb, Bool.false_eq_true, if_false]
        exact Nat.lt_succ_of_lt (ih ht)
      · simp only [List.filter_cons, hqb, if_true, List.length_cons]
        exact Nat.succ_lt_succ (ih ht)

theorem lruSet_max (c : LruModel V) (k : String) (v : V) (now : Nat)
    (ttl : Option Nat) : (lruSet c k v now ttl).max = c.max := rfl

theorem lruSet_ttlMs (c : LruModel V) (k : String) (v : V) (now : Nat)
    (ttl : Option Nat) : (lruSet c k v now ttl).ttlMs = c.ttlMs := rfl

theorem lruSet_length_le (c : LruModel V) (k : String) (v : V) (now : Nat)
    (ttl : Option Nat) (hmax : 1 ≤ c.max) :
    (lruSet c k v now ttl).entries.length ≤ c.max := by
  unfold lruSet
  simp only [List.length_cons]
  by_cases hc : c.max ≤ (c.entries.filter (fun ent => ent.key != k)).length
  · simp only [hc, if_true, List.length_take]
    omega
  · simp only [hc, if_false]
    omega

theorem lruGet_max (c : LruModel V) (k : String) (now : Nat) :
    ((lruGet c k now).2).max = c.max := by
  rcases hfind : c.entries.find? (fun ent => ent.key == k) with _ | ent <;>
    simp only [lruGet, hfind] <;> try rfl
  by_cases hexp : now < ent.expiresAt <;> simp only [hexp, if_true, if_false] <;> rfl

theorem lruGet_ttlMs (c : LruModel V) (k : String) (now : Nat) :
    ((lruGet c k now).2).ttlMs = c.ttlMs := by
  rcases hfind : c.entries.find? (fun ent => ent.key == k) with _ | ent <;>
    simp only [lruGet, hfind] <;> try rfl
  by_cases hexp : now < ent.expiresAt <;> simp only [hexp, if_true, if_false] <;> rfl

theorem lruGet_length_le (c : LruModel V) (k : String) (now : Nat) :
    ((lruGet c k now).2).entries.length ≤ c.entries.length := by
  rcases hfind : c.entries.find? (fun ent => ent.key == k) with _ | ent
  · simp only [lruGet, hfind]
    exact Nat.le_refl _
  · simp only [lruGet, hfind]
    have hmem : ent ∈ c.entries := List.mem_of_find?_eq_some hfind
    have hkey := List.find?_some hfind
    have hq : (ent.key != k) = false := by simp [bne]; simpa using hkey
    have hlt : (c.entries.filter (fun e2 => e2.key != k)).length < c.entries.length :=
      length_filter_lt_of_mem_not c.entries _ ent hmem hq
    by_cases hexp : now < ent.expiresAt <;> simp only [hexp, if_true, if_false]
    · simpa using hlt
    · exact Nat.le_of_lt hlt

theorem applyOp_cache_max (s : AnalyzeCacheState V) (op : CacheOp V) :
    (applyOp s op).cache.max = s.cache.max := by
  cases op with
  | set k v now ttl => exact lruSet_max _ _ _ _ _
  | get k now =>
    simp only [applyOp, svcGet]
    rcases hg : lruGet s.cache k now with ⟨val, c2⟩
    have := lruGet_max s.cache k now
    rw [hg] at this
    cases val <;> simpa using this
  | has k now => rfl
  | stats => rfl
  | clear => rfl
  | reset => rfl

theorem applyOp_length_le (s : AnalyzeCacheState V) (op : CacheOp V)
    (hmax : 1 ≤ s.cache.max) (hlen : s.cache.entries.length ≤ s.cache.max) :
    (applyOp s op).cache.entries.length ≤ s.cache.max := by
  cases op with
  | set k v now ttl => exact lruSet_length_le _ _ _ _ _ hmax
  | get k now =>
    simp only [applyOp, svcGet]
    rcases hg : lruGet s.cache k now with ⟨val, c2⟩
    have := lruGet_length_le s.cache k now
    rw [hg] at this
    cases val <;> simpa using Nat.le_trans this hlen
  | has k now => exact hlen
  | stats => exact hlen
  | clear => simpa [applyOp, svcClear] using Nat.zero_le _
  | reset => exact hlen

theorem runOps_length_le :
    ∀ (ops : List (CacheOp V)) (s : AnalyzeCacheState V),
      1 ≤ s.cache.max → s.cache.entries.length ≤ s.cache.max →
      (runOps s ops).cache.entries.length ≤ s.cache.max
        ∧ (runOps s ops).cache.max = s.cache.max := by
  intro ops
  induction ops with
  | nil => intro s hmax hlen; exact ⟨hlen, rfl⟩
  | cons op rest ih =>
    intro s hmax hlen
    have hmax2 : (applyOp s op).cache.max = s.cache.max := applyOp_cache_max s op
    have h1 : 1 ≤ (applyOp s op).cache.max := by omega
    have h2 : (applyOp s op).cache.entries.length ≤ (applyOp s op).cache.max := by
      rw [hmax2]
      exact applyOp_length_le s op hmax hlen
    have hrec := ih (applyOp s op) h1 h2
    constructor
    · have : (runOps (applyOp s op) rest).cache.entries.length
          ≤ (applyOp s op).cache.max := hrec.1
      rw [hmax2] at this
      simpa [runOps, List.foldl_cons] using this
    · have : (runOps (applyOp s op) rest).cache.max = (applyOp s op).cache.max := hrec.2
      rw [hmax2] at this
      simpa [runOps, List.foldl_cons] using this

theorem runSets_fill (v : V) (now : Nat) :
    ∀ (ks : List String) (s : AnalyzeCacheState V),
      ks.Nodup →
      (∀ k ∈ ks, ∀ ent ∈ s.cache.entries, ent.key ≠ k) →
      s.cache.entries.length + ks.length ≤ s.cache.max →
      (runOps s (ks.map fun k => CacheOp.set k v now none)).cache.entries
          = (ks.reverse.map fun k => (⟨k, v, now + s.cache.ttlMs⟩ : LruEntry V))
            ++ s.cache.entries
        ∧ (runOps s (ks.map fun k => CacheOp.set k v now none)).cache.max = s.cache.max
        ∧ (runOps s (ks.map fun k => CacheOp.set k v now none)).cache.ttlMs
            = s.cache.ttlMs := by
  intro ks
  induction ks with
  | nil => intro s _ _ _; simp [runOps]
  | cons k ks ih =>
    intro s hnd hfresh hlen
    have hrest : s.cache.entries.filter (fun ent => ent.key != k) = s.cache.entries :=
      List.filter_eq_self.mpr (fun ent hent => by
        have := hfresh k (by simp) ent hent
        simpa [bne] using this)
    have hnotover : ¬ (s.cache.max ≤ s.cache.entries.length) := by
      simp only [List.length_cons] at hlen
      omega
    have hset : applyOp s (CacheOp.set k v now none)
        = { s with cache := { s.cache with
            entries := ⟨k, v, now + s.cache.ttlMs⟩ :: s.cache.entries } } := by
      simp only [applyOp, svcSet, lruSet, hrest, hnotover, if_false, Option.getD]
    have hstep : runOps s ((k :: ks).map fun k2 => CacheOp.set k2 v now none)
        = runOps (applyOp s (CacheOp.set k v now none))
            (ks.map fun k2 => CacheOp.set k2 v now none) := by
      simp [runOps, List.foldl_cons]
    have hk_not_mem : k ∉ ks := (List.nodup_cons.mp hnd).1
    have hrec := ih { s with cache := { s.cache with
        entries := ⟨k, v, now + s.cache.ttlMs⟩ :: s.cache.entries } }
      (List.nodup_cons.mp hnd).2
      (by
        intro k2 hk2 ent hent
        rcases List.mem_cons.mp hent with hhead | htail
        · subst hhead
          intro hcontra
          have hk2eq : k = k2 := hcontra
          exact hk_not_mem (by rw [hk2eq]; exact hk2)
        · exact hfresh k2 (List.mem_cons_of_mem _ hk2) ent htail)
      (by
        simp only [List.length_cons] at hlen ⊢
        omega)
    rw [hstep, hset]
    refine ⟨?_, hrec.2.1, hrec.2.2⟩
    rw [hrec.1]
    simp [List.reverse_cons, List.map_append, List.append_assoc]

end CacheLemmas

/-- Claim C6: with any capacity of at least one, (a) the cache never holds
more than `maxEntries` live entries over any usage history, and (b)
inserting `maxEntries + 1` distinct keys in order, with no intervening
reads, evicts exactly the first (least recently used) key: the surviving
keys, most recent first, are the reverse of all keys but the first. -/
theorem cache_capacity_and_lru_eviction (V : Type) (maxEntries ttlSeconds : Nat)
    (hmax : 1 ≤ maxEntries) :
    (∀ ops : List (CacheOp V),
        (runOps (analyzeCacheInit V maxEntries ttlSeconds) ops).cache.entries.length
          ≤ maxEntries)
      ∧ (∀ (ks : List String) (v : V) (now : Nat), ks.Nodup →
          ks.length = maxEntries + 1 →
          (runOps (analyzeCacheInit V maxEntries ttlSeconds)
              (ks.map fun k => CacheOp.set k v now none)).cache.entries.map LruEntry.key
            = (ks.drop 1).reverse) := by
  constructor
  · intro ops
    exact (runOps_length_le ops (analyzeCacheInit V maxEntries ttlSeconds) hmax
      (by simp [analyzeCacheInit])).1
  · intro ks v now hnd hlen
    have hne : ks ≠ [] := by
      intro h
      rw [h] at hlen
      simp at hlen
    have hsplit : ks.dropLast ++ [ks.getLast hne] = ks :=
      List.dropLast_append_getLast hne
    set ks0 := ks.dropLast with hks0
    set kl := ks.getLast hne with hkl
    have hlen0 : ks0.length = maxEntries := by
      have := congrArg List.length hsplit
      simp only [List.length_append, List.length_singleton] at this
      omega
    have hndsplit := hnd
    rw [← hsplit] at hndsplit
    have hnd0 : ks0.Nodup := (List.nodup_append.mp hndsplit).1
    have hdisj : kl ∉ ks0 := by
      have hd := (List.nodup_append.mp hndsplit).2.2
      intro hmem
      exact hd hmem (by simp)
    have hfill := runSets_fill v now ks0 (analyzeCacheInit V maxEntries ttlSeconds)
      hnd0 (by intro k hk ent hent; simp [analyzeCacheInit] at hent)
      (by simp [analyzeCacheInit]; omega)
    set s1 := runOps (analyzeCacheInit V maxEntries ttlSeconds)
      (ks0.map fun k => CacheOp.set k v now none) with hs1
    have hent1 : s1.cache.entries
        = ks0.reverse.map fun k =>
            (⟨k, v, now + ttlSeconds * 1000⟩ : LruEntry V) := by
      have := hfill.1
      simpa [analyzeCacheInit] using this
    have hmax1 : s1.cache.max = maxEntries := by
      simpa [analyzeCacheInit] using hfill.2.1
    have httl1 : s1.cache.ttlMs = ttlSeconds * 1000 := by
      simpa [analyzeCacheInit] using hfill.2.2
    have hops : ks.map (fun k => CacheOp.set k v now none)
        = (ks0.map fun k => CacheOp.set k v now none)
          ++ [CacheOp.set kl v now none] := by
      rw [← hsplit]
      simp
    have hrun : runOps (analyzeCacheInit V maxEntries ttlSeconds)
        (ks.map fun k => CacheOp.set k v now none)
        = applyOp s1 (CacheOp.set kl v now none) := by
      rw [hops]
      simp only [runOps, List.foldl_append, List.foldl_cons, List.foldl_nil]
      rfl
    -- the final insertion evicts the least recent entry (key k1)
    have hrest : s1.cache.entries.filter (fun ent => ent.key != kl)
        = s1.cache.entries := by
      refine List.filter_eq_self.mpr (fun ent hent => ?_)
      rw [hent1] at hent
      simp only [List.mem_map, List.mem_reverse] at hent
      obtain ⟨k0, hk0, rfl⟩ := hent
      simp only [bne_iff_ne, ne_eq]
      intro hcontra
      exact hdisj (by simpa [hcontra] using hk0)
    have hlen1 : s1.cache.entries.length = maxEntries := by
      rw [hent1]
      simp [hlen0]
    have hfinal : applyOp s1 (CacheOp.set kl v now none)
        = { s1 with cache := { s1.cache with
            entries := ⟨kl, v, now + ttlSeconds * 1000⟩
              :: s1.cache.entries.take (s1.cache.max - 1) } } := by
      simp only [applyOp, svcSet, lruSet, Option.getD, httl1]
      rw [hrest, if_pos (by rw [hlen1, hmax1])]
    have htake0 : ks0.reverse.take (maxEntries - 1) = (ks0.drop 1).reverse := by
      rw [List.take_reverse, hlen0, show maxEntries - (maxEntries - 1) = 1 from by omega]
    have htake : (ks0.reverse.map fun k =>
          (⟨k, v, now + ttlSeconds * 1000⟩ : LruEntry V)).take (maxEntries - 1)
        = ((ks0.drop 1).reverse.map fun k =>
            (⟨k, v, now + ttlSeconds * 1000⟩ : LruEntry V)) := by
      rw [← List.map_take, htake0]
    have hdrop : ks.drop 1 = ks0.drop 1 ++ [kl] := by
      rw [← hsplit, List.drop_append_of_le_length]
      omega
    rw [hrun, hfinal]
    simp only [hmax1, hent1, htake, hdrop]
    simp [List.map_map, List.reverse_append, Function.comp]
    have hcomp : (LruEntry.key ∘ fun k =>
        (⟨k, v, now + ttlSeconds * 1000⟩ : LruEntry V)) = fun k => k := rfl
    rw [hcomp, List.map_id']

/-- Concrete instance of claim C6: capacity 2 never exceeded over a mixed
history, and inserting keys k1, k2, k3 into a capacity-2 cache leaves keys
k3, k2 (most recent first): k1 was evicted. -/
theorem cache_capacity_and_lru_eviction_witness :
    (runOps (analyzeCacheInit Nat 2 60)
        [CacheOp.set "a" 1 0 none, CacheOp.set "b" 2 0 none,
         CacheOp.get "a" 0, CacheOp.set "c" 3 0 none]).cache.entries.length ≤ 2
      ∧ (runOps (analyzeCacheInit Nat 2 60)
          (["k1", "k2", "k3"].map fun k => CacheOp.set k 7 0 none)).cache.entries.map
            LruEntry.key
          = (["k1", "k2", "k3"].drop 1).reverse := by
  exact ⟨(cache_capacity_and_lru_eviction Nat 2 60 (by omega)).1 _,
    (cache_capacity_and_lru_eviction Nat 2 60 (by omega)).2 ["k1", "k2", "k3"] 7 0
      (by decide) rfl⟩

/-- Claim C8: `getStats` reports `hitRate = hits / (hits + misses)` when
there has been traffic and 0 otherwise; every `get` increments exactly one
counter — hits when the key is present and unexpired, misses otherwise —
and `has` and `getStats` modify no state at all. -/
theorem cache_stats_accounting (V : Type) (s : AnalyzeCacheState V) (k : String)
    (now : Nat) :
    ((svcGetStats s).1.hitRate
        = if 0 < s.hits + s.misses then (s.hits : ℚ) / ((s.hits : ℚ) + (s.misses : ℚ))
          else 0)
      ∧ ((svcGet s k now).2.hits
          = if (lruGet s.cache k now).1.isSome then s.hits + 1 else s.hits)
      ∧ ((svcGet s k now).2.misses
          = if (lruGet s.cache k now).1.isSome then s.misses else s.misses + 1)
      ∧ (svcHas s k now).2 = s
      ∧ (svcGetStats s).2 = s := by
  refine ⟨?_, ?_, ?_, rfl, rfl⟩
  · simp only [svcGetStats]
    by_cases h : 0 < s.hits + s.misses <;> simp [h]
  · rcases hg : lruGet s.cache k now with ⟨val, c2⟩
    cases val <;> simp [svcGet, hg]
  · rcases hg : lruGet s.cache k now with ⟨val, c2⟩
    cases val <;> simp [svcGet, hg]

/-! ## Lazy singleton factory: createServiceFactory -/

/-- The closure state of `createServiceFactory`: the `instance` variable and
the boolean `initialization` flag collapse into one constructor each for the
not-yet-constructed and constructed cases; crucially `ready v` stores any
value `v`, falsy or not — the source guards on the boolean flag, never on
the truthiness of the stored instance. -/
inductive FactoryState (T : Type) where
  | uninit
  | ready (v : T)
  deriving DecidableEq

/-- One call of the accessor returned by `createServiceFactory`. The
constructor is modelled as a map from the invocation counter to the value it
returns (so a non-deterministic constructor is allowed); the call returns
the produced value, the new closure state and the new invocation counter. -/
def factoryCall {T : Type} (ctor : Nat → T) :
    FactoryState T → Nat → T × FactoryState T × Nat
  | .uninit, calls => (ctor calls, .ready (ctor calls), calls + 1)
  | .ready v, calls => (v, .ready v, calls)

/-- Run `n` successive accessor calls, collecting the returned values. -/
def runFactory {T : Type} (ctor : Nat → T) :
    Nat → FactoryState T → Nat → List T × FactoryState T × Nat
  | 0, st, calls => ([], st, calls)
  | n + 1, st, calls =>
    let r1 := factoryCall ctor st calls
    let rest := runFactory ctor n r1.2.1 r1.2.2
    (r1.1 :: rest.1, rest.2.1, rest.2.2)

theorem runFactory_ready {T : Type} (ctor : Nat → T) :
    ∀ (n : Nat) (v : T) (calls : Nat),
      runFactory ctor n (.ready v) calls
        = (List.replicate n v, .ready v, calls) := by
  intro n
  induction n with
  | zero => intro v calls; rfl
  | succ m ih =>
    intro v calls
    rw [runFactory]
    simp only [factoryCall, ih]
    rfl

/-- Claim C9: starting uninitialized, a sequence of `n` accessor calls
invokes the constructor at most once (exactly once as soon as there is any
call), and every call — the first included — returns the value produced by
that single construction, regardless of the constructed value (the guard is
the flag, so falsy values such as null, 0, the empty string, false or
undefined are memoized the same way). -/
theorem serviceFactory_constructs_at_most_once {T : Type} (ctor : Nat → T) (n : Nat) :
    runFactory ctor n FactoryState.uninit 0
      = (List.replicate n (ctor 0),
         if n = 0 then FactoryState.uninit else FactoryState.ready (ctor 0),
         min n 1) := by
  cases n with
  | zero => rfl
  | succ m =>
    rw [runFactory]
    simp only [factoryCall, runFactory_ready]
    simp [List.replicate_succ]

/-! ## Analyze route handler fragment: src/routes/analyze.ts -/

/-- A JavaScript value as stored in and returned from the analyze cache
(undefined is represented by `Option` at the call sites, so it is not a
storable value here). -/
inductive JsVal where
  | vNull
  | vBool (b : Bool)
  | vNum (n : Int)
  | vStr (s : String)
  | vObj (id : Nat)
  deriving DecidableEq

/-- JavaScript truthiness of a stored value: null, false, 0 and the empty
string are falsy; every object is truthy. -/
def JsVal.truthy : JsVal → Bool
  | .vNull => false
  | .vBool b => b
  | .vNum n => n != 0
  | .vStr s => s != ""
  | .vObj _ => true

/-- What the upstream analyze call can throw: an `ApplicationError`
(re-thrown as-is by the handler) or a raw failure (categorized inline). -/
inductive AnalyzeFailure where
  | app (e : ApplicationError)
  | raw (e : RawApiError)

/-- The catch block of the analyze handler. The inline categorization chain
duplicates the error classifier but compares the message without
lowercasing (patterns "API key" and "INVALID_ARGUMENT" are matched
case-sensitively in the route). -/
def handleAnalyzeCatch (isDevelopment : Bool) : AnalyzeFailure → ApplicationError
  | .app e => e
  | .raw e =>
    let errorCode := e.code
    let errorMessage := strOr e.message ""
    if errorCode == some (JsStatus.num 401)
        || strContains errorMessage "API key"
        || strContains errorMessage "INVALID_ARGUMENT" then
      ⟨"API_UNAVAILABLE", some "Service temporarily unavailable. Please contact support.",
        JsStatus.num 503, none⟩
    else if errorCode == some (JsStatus.num 429)
        || strContains errorMessage "quota"
        || strContains errorMessage "rate limit" then
      ⟨"API_QUOTA_EXCEEDED",
        some "Service temporarily unavailable due to high demand. Please try again later.",
        JsStatus.num 503, none⟩
    else if strContains errorMessage "content" && strContains errorMessage "filter" then
      ⟨"CONTENT_FILTERED", some "Unable to process this content. Please try different text.",
        JsStatus.num 400, none⟩
    else if errorCode == some (JsStatus.str "ECONNREFUSED")
        || errorCode == some (JsStatus.str "ENOTFOUND") then
      ⟨"API_UNAVAILABLE", some "Unable to connect to analysis service. Please try again.",
        JsStatus.num 503, none⟩
    else if errorCode == some (JsStatus.str "ETIMEDOUT")
        || strContains errorMessage "timeout" then
      ⟨"TIMEOUT", some "Request timed out. Please try again.", JsStatus.num 504, none⟩
    else
      ⟨"API_ERROR", some "Failed to analyze phrase", JsStatus.num 500,
        if isDevelopment then some errorMessage else none⟩

/-- Observable outcome of one analyze request: the response, the cache
service state afterwards, and whether the upstream was invoked. -/
structure AnalyzeOutcome where
  response : Except ApplicationError JsVal
  state : AnalyzeCacheState JsVal
  calledUpstream : Bool

/-- The cache-miss path of the handler: call upstream; on success store the
result under the cache key and return it, on failure run the catch block
and store nothing. -/
def analyzeUpstreamStep (s1 : AnalyzeCacheState JsVal) (cacheKey : String) (now : Nat)
    (isDev : Bool) (upstream : Except AnalyzeFailure JsVal) : AnalyzeOutcome :=
  match upstream with
  | Except.ok result => ⟨Except.ok result, svcSet s1 cacheKey result now none, true⟩
  | Except.error err => ⟨Except.error (handleAnalyzeCatch isDev err), s1, true⟩

/-- The cache-consulting fragment of the analyze handler: compute the cache
key from (phrase, action, optional fullPhrase) — the image is deliberately
excluded — look the key up (`get`, counting a hit or a miss), return a
truthy cached value directly, and otherwise go upstream. The truthiness
test `if (cachedResult)` is the source's own check. -/
def analyzeHandler (s : AnalyzeCacheState JsVal) (hash : String → String)
    (phrase action : String) (fullPhrase : Option String) (now : Nat) (isDev : Bool)
    (upstream : Except AnalyzeFailure JsVal) : AnalyzeOutcome :=
  let cacheKey := generateKey hash phrase action fullPhrase
  let lookup := svcGet s cacheKey now
  match lookup.1 with
  | some v =>
    if v.truthy then ⟨Except.ok v, lookup.2, false⟩
    else analyzeUpstreamStep lookup.2 cacheKey now isDev upstream
  | none => analyzeUpstreamStep lookup.2 cacheKey now isDev upstream

theorem lruGet_stable {V : Type} (c : LruModel V) (k : String) (now : Nat) :
    (lruGet ((lruGet c k now).2) k now).1 = (lruGet c k now).1 := by
  rcases hfind : c.entries.find? (fun ent => ent.key == k) with _ | ent
  · simp only [lruGet, hfind]
  · have hkey := List.find?_some hfind
    have hfilter : ∀ x ∈ c.entries.filter (fun e2 => e2.key != k),
        ¬ ((fun e2 : LruEntry V => e2.key == k) x) = true := by
      intro x hx
      have := List.of_mem_filter hx
      simp only [bne_iff_ne, ne_eq] at this
      simpa using this
    by_cases hexp : now < ent.expiresAt
    · simp only [lruGet, hfind, hexp, if_true]
      have hfind2 : ((ent :: c.entries.filter (fun e2 => e2.key != k)).find?
          (fun e2 => e2.key == k)) = some ent := by
        rw [List.find?_cons_of_pos]
        simpa using hkey
      simp only [hfind2, hexp, if_true]
    · simp only [lruGet, hfind, hexp, if_false]
      have hfind2 : ((c.entries.filter (fun e2 => e2.key != k)).find?
          (fun e2 => e2.key == k)) = none :=
        List.find?_eq_none.mpr hfilter
      simp only [hfind2]

theorem svcGet_cache_eq {V : Type} (s : AnalyzeCacheState V) (k : String) (now : Nat) :
    ((svcGet s k now).2).cache = (lruGet s.cache k now).2 := by
  rcases hg : lruGet s.cache k now with ⟨val, c2⟩
  cases val <;> simp [svcGet, hg]

theorem svcGet_fst_eq {V : Type} (s : AnalyzeCacheState V) (k : String) (now : Nat) :
    (svcGet s k now).1 = (lruGet s.cache k now).1 := by
  rcases hg : lruGet s.cache k now with ⟨val, c2⟩
  cases val <;> simp [svcGet, hg]

theorem svcGet_stable {V : Type} (s : AnalyzeCacheState V) (k : String) (now : Nat) :
    (svcGet ((svcGet s k now).2) k now).1 = (svcGet s k now).1 := by
  rw [svcGet_fst_eq, svcGet_fst_eq, svcGet_cache_eq]
  exact lruGet_stable s.cache k now

theorem lruGet_set_same {V : Type} (c : LruModel V) (k : String) (v : V)
    (now t2 : Nat) (ttl : Option Nat) (h : t2 < now + ttl.getD c.ttlMs) :
    (lruGet (lruSet c k v now ttl) k t2).1 = some v := by
  simp only [lruSet, lruGet]
  rw [List.find?_cons_of_pos]
  · simp only [h, if_true]
  · simp

theorem svcGet_ttlMs {V : Type} (s : AnalyzeCacheState V) (k : String) (now : Nat) :
    ((svcGet s k now).2).cache.ttlMs = s.cache.ttlMs := by
  rw [svcGet_cache_eq]
  exact lruGet_ttlMs s.cache k now

/-- Claim C7: whenever the upstream analyze call throws (which presupposes
the lookup did not return a truthy cached value, observed here as
`calledUpstream`), the handler performs no cache insertion — the final cache
is exactly the cache as the lookup left it, the response is the classified
failure — and a second identical request still invokes the upstream. -/
theorem analyze_error_path_leaves_cache_unchanged
    (s : AnalyzeCacheState JsVal) (hash : String → String) (phrase action : String)
    (fullPhrase : Option String) (now : Nat) (isDev : Bool) (err : AnalyzeFailure)
    (upstream2 : Except AnalyzeFailure JsVal)
    (hcalled : (analyzeHandler s hash phrase action fullPhrase now isDev
        (Except.error err)).calledUpstream = true) :
    (analyzeHandler s hash phrase action fullPhrase now isDev
        (Except.error err)).state.cache
        = ((svcGet s (generateKey hash phrase action fullPhrase) now).2).cache
      ∧ (analyzeHandler s hash phrase action fullPhrase now isDev
          (Except.error err)).response
          = Except.error (handleAnalyzeCatch isDev err)
      ∧ (analyzeHandler
          (analyzeHandler s hash phrase action fullPhrase now isDev
            (Except.error err)).state
          hash phrase action fullPhrase now isDev upstream2).calledUpstream = true := by
  rcases hl : (svcGet s (generateKey hash phrase action fullPhrase) now).1 with _ | v
  · have hstable := svcGet_stable s (generateKey hash phrase action fullPhrase) now
    rw [hl] at hstable
    refine ⟨?_, ?_, ?_⟩
    · simp [analyzeHandler, hl, analyzeUpstreamStep]
    · simp [analyzeHandler, hl, analyzeUpstreamStep]
    · simp only [analyzeHandler, hl, analyzeUpstreamStep, hstable]
      cases upstream2 <;> simp
  · by_cases htr : v.truthy
    · exfalso
      rw [analyzeHandler] at hcalled
      simp only [hl, htr, if_true] at hcalled
      exact Bool.false_ne_true hcalled
    · have hstable := svcGet_stable s (generateKey hash phrase action fullPhrase) now
      rw [hl] at hstable
      have htr2 : v.truthy = false := by simpa using htr
      refine ⟨?_, ?_, ?_⟩
      · simp [analyzeHandler, hl, htr2, analyzeUpstreamStep]
      · simp [analyzeHandler, hl, htr2, analyzeUpstreamStep]
      · simp only [analyzeHandler, hl, htr2, Bool.false_eq_true, if_false,
          analyzeUpstreamStep, hstable]
        cases upstream2 <;> simp

/-- Concrete instance of claim C7: on an empty cache, a throwing upstream
leaves the lookup-time cache in place and a second identical request calls
upstream again. -/
theorem analyze_error_path_leaves_cache_unchanged_witness :
    (analyzeHandler (analyzeCacheInit JsVal 10 60) id "p" "translate" none 0 false
        (Except.error (AnalyzeFailure.app ⟨"API_ERROR", some "boom", JsStatus.num 500,
          none⟩))).state.cache
        = ((svcGet (analyzeCacheInit JsVal 10 60) (generateKey id "p" "translate" none)
            0).2).cache
      ∧ (analyzeHandler (analyzeCacheInit JsVal 10 60) id "p" "translate" none 0 false
          (Except.error (AnalyzeFailure.app ⟨"API_ERROR", some "boom", JsStatus.num 500,
            none⟩))).response
          = Except.error (handleAnalyzeCatch false (AnalyzeFailure.app ⟨"API_ERROR",
              some "boom", JsStatus.num 500, none⟩))
      ∧ (analyzeHandler
          (analyzeHandler (analyzeCacheInit JsVal 10 60) id "p" "translate" none 0 false
            (Except.error (AnalyzeFailure.app ⟨"API_ERROR", some "boom", JsStatus.num 500,
              none⟩))).state
          id "p" "translate" none 0 false
          (Except.ok (JsVal.vStr "x"))).calledUpstream = true := by
  exact analyze_error_path_leaves_cache_unchanged (analyzeCacheInit JsVal 10 60) id
    "p" "translate" none 0 false _ _ rfl

/-- Claim C10: when the upstream succeeds with a falsy value (null, false,
0 or the empty string) on a missed lookup, the handler does store it in the
cache; on a later identical request within the TTL the cache lookup returns
the stored value and increments the hit counter, yet the handler's
truthiness test treats it as a miss and invokes the upstream again. -/
theorem analyze_falsy_hit_treated_as_miss
    (s : AnalyzeCacheState JsVal) (hash : String → String) (phrase action : String)
    (fullPhrase : Option String) (now t2 : Nat) (isDev : Bool) (v : JsVal)
    (upstream2 : Except AnalyzeFailure JsVal)
    (hfalsy : v.truthy = false)
    (hmiss : (svcGet s (generateKey hash phrase action fullPhrase) now).1 = none)
    (hlive : t2 < now + s.cache.ttlMs) :
    (analyzeHandler s hash phrase action fullPhrase now isDev
        (Except.ok v)).calledUpstream = true
      ∧ (analyzeHandler s hash phrase action fullPhrase now isDev (Except.ok v)).state
          = svcSet ((svcGet s (generateKey hash phrase action fullPhrase) now).2)
              (generateKey hash phrase action fullPhrase) v now none
      ∧ (svcGet (analyzeHandler s hash phrase action fullPhrase now isDev
            (Except.ok v)).state (generateKey hash phrase action fullPhrase) t2).1
          = some v
      ∧ (svcGet (analyzeHandler s hash phrase action fullPhrase now isDev
            (Except.ok v)).state (generateKey hash phrase action fullPhrase) t2).2.hits
          = (analyzeHandler s hash phrase action fullPhrase now isDev
              (Except.ok v)).state.hits + 1
      ∧ (analyzeHandler (analyzeHandler s hash phrase action fullPhrase now isDev
            (Except.ok v)).state hash phrase action fullPhrase t2 isDev
            upstream2).calledUpstream = true := by
  have hstate : (analyzeHandler s hash phrase action fullPhrase now isDev
      (Except.ok v)).state
      = svcSet ((svcGet s (generateKey hash phrase action fullPhrase) now).2)
          (generateKey hash phrase action fullPhrase) v now none := by
    simp [analyzeHandler, hmiss, analyzeUpstreamStep]
  have hcalled : (analyzeHandler s hash phrase action fullPhrase now isDev
      (Except.ok v)).calledUpstream = true := by
    simp [analyzeHandler, hmiss, analyzeUpstreamStep]
  have hget2 : (svcGet (analyzeHandler s hash phrase action fullPhrase now isDev
      (Except.ok v)).state (generateKey hash phrase action fullPhrase) t2).1
      = some v := by
    rw [hstate, svcGet_fst_eq]
    have hc : (svcSet ((svcGet s (generateKey hash phrase action fullPhrase) now).2)
        (generateKey hash phrase action fullPhrase) v now none).cache
        = lruSet ((svcGet s (generateKey hash phrase action fullPhrase) now).2).cache
            (generateKey hash phrase action fullPhrase) v now none := rfl
    rw [hc]
    refine lruGet_set_same _ _ _ _ _ _ ?_
    simp only [Option.getD]
    rw [svcGet_ttlMs]
    exact hlive
  refine ⟨hcalled, hstate, hget2, ?_, ?_⟩
  · rw [svcGet_fst_eq] at hget2
    rcases hg : lruGet (analyzeHandler s hash phrase action fullPhrase now isDev
        (Except.ok v)).state.cache (generateKey hash phrase action fullPhrase) t2
      with ⟨val, c2⟩
    rw [hg] at hget2
    simp only at hget2
    subst hget2
    simp [svcGet, hg]
  · rw [analyzeHandler]
    have hget2fold : (svcGet (analyzeHandler s hash phrase action fullPhrase now isDev
        (Except.ok v)).state (generateKey hash phrase action fullPhrase) t2).1
        = some v := hget2
    simp only [hget2fold, hfalsy, Bool.false_eq_true, if_false]
    simp [analyzeUpstreamStep]
    cases upstream2 <;> simp [analyzeUpstreamStep]

/-- Concrete instance of claim C10: an empty-string result is cached, and
the second identical request counts a hit yet calls upstream again. -/
theorem analyze_falsy_hit_treated_as_miss_witness :
    (analyzeHandler (analyzeCacheInit JsVal 10 60) id "p" "translate" none 0 false
        (Except.ok (JsVal.vStr ""))).calledUpstream = true
      ∧ (analyzeHandler (analyzeCacheInit JsVal 10 60) id "p" "translate" none 0 false
          (Except.ok (JsVal.vStr ""))).state
          = svcSet ((svcGet (analyzeCacheInit JsVal 10 60)
              (generateKey id "p" "translate" none) 0).2)
              (generateKey id "p" "translate" none) (JsVal.vStr "") 0 none
      ∧ (svcGet (analyzeHandler (analyzeCacheInit JsVal 10 60) id "p" "translate" none 0
            false (Except.ok (JsVal.vStr ""))).state
            (generateKey id "p" "translate" none) 1).1 = some (JsVal.vStr "")
      ∧ (svcGet (analyzeHandler (analyzeCacheInit JsVal 10 60) id "p" "translate" none 0
            false (Except.ok (JsVal.vStr ""))).state
            (generateKey id "p" "translate" none) 1).2.hits
          = (analyzeHandler (analyzeCacheInit JsVal 10 60) id "p" "translate" none 0
              false (Except.ok (JsVal.vStr ""))).state.hits + 1
      ∧ (analyzeHandler (analyzeHandler (analyzeCacheInit JsVal 10 60) id "p" "translate"
            none 0 false (Except.ok (JsVal.vStr ""))).state
            id "p" "translate" none 1 false
            (Except.ok (JsVal.vStr "y"))).calledUpstream = true := by
  exact analyze_falsy_hit_treated_as_miss (analyzeCacheInit JsVal 10 60) id
    "p" "translate" none 0 1 false (JsVal.vStr "") (Except.ok (JsVal.vStr "y"))
    rfl rfl (by decide)

end YomitokuServer
